import Mathlib

/-!
Shallow embedding of the PitchAccent repository's accent computation code
(src/pitch_accent/engine.py, src/pitch_accent/compound.py, src/numeral_accent.py,
src/app.py, src/anki_generator.py), together with theorems settling the claims
about its specification.

Conventions:
* Python `int` is embedded as `Int`; Python `str` as `String`, manipulated
  through its `List Char` code-point representation (Python strings are
  sequences of code points, as are `String.data` lists).
* String-splitting helpers are defined by structural recursion over `List Char`
  so that they evaluate by `decide`/`rfl`.
* Fallible code (Python code that can raise, e.g. `int(...)` on a malformed
  string) is embedded with `Option`.
-/

namespace PitchAccent

/-! ## Mora counting

Three independent implementations exist in the source:
`AccentEngine.count_mora` (engine.py), `count_mora` (compound.py) and
`count_mora` (numeral_accent.py).
-/

namespace Engine

/-- engine.py `AccentEngine.SMALL_KANA`: the set literal
"ぁぃぅぇぉゃゅょゎァィゥェォャュョヮっッ". -/
def SMALL_KANA : List Char :=
  ['ぁ', 'ぃ', 'ぅ', 'ぇ', 'ぉ', 'ゃ', 'ゅ', 'ょ', 'ゎ',
   'ァ', 'ィ', 'ゥ', 'ェ', 'ォ', 'ャ', 'ュ', 'ョ', 'ヮ', 'っ', 'ッ']

/-- engine.py `AccentEngine.SOKUON`: the set literal "っッ". -/
def SOKUON : List Char := ['っ', 'ッ']

/-- Loop body of engine.py `AccentEngine.count_mora`: skip characters that are
in `SMALL_KANA` but not in `SOKUON`, count every other character. -/
def countMoraAux : List Char → Nat
  | [] => 0
  | c :: cs => (if c ∈ SMALL_KANA ∧ c ∉ SOKUON then 0 else 1) + countMoraAux cs

/-- engine.py `AccentEngine.count_mora`. -/
def count_mora (reading : String) : Nat := countMoraAux reading.data

end Engine

namespace Compound

/-- compound.py `count_mora`'s local `SMALL_KANA` set literal
"ぁぃぅぇぉゃゅょゎァィゥェォャュョヮ". -/
def SMALL_KANA : List Char :=
  ['ぁ', 'ぃ', 'ぅ', 'ぇ', 'ぉ', 'ゃ', 'ゅ', 'ょ', 'ゎ',
   'ァ', 'ィ', 'ゥ', 'ェ', 'ォ', 'ャ', 'ュ', 'ョ', 'ヮ']

/-- Loop body of compound.py `count_mora`: count characters outside
`SMALL_KANA`. -/
def countMoraAux : List Char → Nat
  | [] => 0
  | c :: cs => (if c ∈ SMALL_KANA then 0 else 1) + countMoraAux cs

/-- compound.py `count_mora`. -/
def count_mora (reading : String) : Nat := countMoraAux reading.data

end Compound

namespace NumeralAcc

/-- numeral_accent.py `count_mora`'s local `SMALL_KANA` set literal
"ぁぃぅぇぉゃゅょゎァィゥェォャュョヮ". -/
def SMALL_KANA : List Char :=
  ['ぁ', 'ぃ', 'ぅ', 'ぇ', 'ぉ', 'ゃ', 'ゅ', 'ょ', 'ゎ',
   'ァ', 'ィ', 'ゥ', 'ェ', 'ォ', 'ャ', 'ュ', 'ョ', 'ヮ']

/-- Loop body of numeral_accent.py `count_mora`. -/
def countMoraAux : List Char → Nat
  | [] => 0
  | c :: cs => (if c ∈ SMALL_KANA then 0 else 1) + countMoraAux cs

/-- numeral_accent.py `count_mora`. -/
def count_mora (reading : String) : Nat := countMoraAux reading.data

end NumeralAcc

lemma engine_small_kana_split : Engine.SMALL_KANA = Compound.SMALL_KANA ++ Engine.SOKUON := by
  decide

lemma small_kana_cond (c : Char) :
    (c ∈ Engine.SMALL_KANA ∧ c ∉ Engine.SOKUON) ↔ c ∈ Compound.SMALL_KANA := by
  have hdisj : ∀ d ∈ Compound.SMALL_KANA, d ∉ Engine.SOKUON := by decide
  rw [engine_small_kana_split]
  constructor
  · rintro ⟨hmem, hnot⟩
    rcases List.mem_append.mp hmem with h | h
    · exact h
    · exact absurd h hnot
  · intro h
    exact ⟨List.mem_append.mpr (Or.inl h), hdisj c h⟩

lemma countMoraAux_eq_engine_compound (l : List Char) :
    Engine.countMoraAux l = Compound.countMoraAux l := by
  induction l with
  | nil => rfl
  | cons c cs ih =>
    simp only [Engine.countMoraAux, Compound.countMoraAux, ih]
    by_cases h : c ∈ Compound.SMALL_KANA
    · rw [if_pos ((small_kana_cond c).mpr h), if_pos h]
    · rw [if_neg (fun hc => h ((small_kana_cond c).mp hc)), if_neg h]

lemma countMoraAux_eq_countP (l : List Char) :
    Compound.countMoraAux l = l.countP (fun c => decide (c ∉ Compound.SMALL_KANA)) := by
  induction l with
  | nil => rfl
  | cons c cs ih =>
    simp only [Compound.countMoraAux, ih, List.countP_cons]
    by_cases h : c ∈ Compound.SMALL_KANA
    · simp [h]
    · simp [h]; omega

lemma countMoraAux_eq_compound_numeral (l : List Char) :
    Compound.countMoraAux l = NumeralAcc.countMoraAux l := by
  induction l with
  | nil => rfl
  | cons c cs ih =>
    simp only [Compound.countMoraAux, NumeralAcc.countMoraAux, ih]
    by_cases h : c ∈ Compound.SMALL_KANA
    · rw [if_pos h, if_pos (show c ∈ NumeralAcc.SMALL_KANA from h)]
    · rw [if_neg h, if_neg (show c ∉ NumeralAcc.SMALL_KANA from h)]

namespace Engine

/-- engine.py `AccentEngine.accent_to_pattern`.  Python `"H" * n` for a
possibly negative `n` is the empty string for `n ≤ 0`, which `Int.toNat`
reproduces. -/
def accent_to_pattern (accentType : Int) (moraCount : Nat)
    (includeParticle : Bool := true) : String :=
  if moraCount = 0 then ""
  else
    let total := moraCount + (if includeParticle then 1 else 0)
    if moraCount = 1 ∧ includeParticle = false then
      if accentType = 1 then "H" else "L"
    else if accentType = 0 then String.mk ('L' :: List.replicate (total - 1) 'H')
    else if accentType = 1 then String.mk ('H' :: List.replicate (total - 1) 'L')
    else if accentType > (total : Int) then String.mk ('L' :: List.replicate (total - 1) 'H')
    else
      String.mk ('L' :: (List.replicate (accentType - 1).toNat 'H' ++
        List.replicate ((total : Int) - accentType).toNat 'L'))

/-- engine.py `AccentEngine.apply_f_rule`.  `mVal`/`lVal` are the optional
M and L parameters (Python `None` ↦ `none`); they default to 0. -/
def apply_f_rule (fType : String) (mVal lVal : Option Int)
    (prevAccent prevMora : Int) : Int :=
  if fType = "F1" then prevAccent
  else if fType = "F2" then
    if prevAccent = 0 then prevMora + mVal.getD 0 else prevAccent
  else if fType = "F3" then
    if prevAccent = 0 then 0 else prevMora + mVal.getD 0
  else if fType = "F4" then prevMora + mVal.getD 0
  else if fType = "F5" then 0
  else if fType = "F6" then
    if prevAccent = 0 then prevMora + mVal.getD 0 else prevMora + lVal.getD 0
  else prevAccent

end Engine

/-- C1: the F-rule application returns F1 → a; F2 → N+M if a = 0 else a;
F3 → 0 if a = 0 else N+M; F4 → N+M; F5 → 0; F6 → N+M if a = 0 else N+L;
and any rule kind outside F1..F6 returns a unchanged (M and L default to 0
when absent). -/
theorem c1_apply_f_rule (a N : Int) (ha : 0 ≤ a) (hN : 0 ≤ N)
    (mVal lVal : Option Int) :
    Engine.apply_f_rule "F1" mVal lVal a N = a ∧
    Engine.apply_f_rule "F2" mVal lVal a N = (if a = 0 then N + mVal.getD 0 else a) ∧
    Engine.apply_f_rule "F3" mVal lVal a N = (if a = 0 then 0 else N + mVal.getD 0) ∧
    Engine.apply_f_rule "F4" mVal lVal a N = N + mVal.getD 0 ∧
    Engine.apply_f_rule "F5" mVal lVal a N = 0 ∧
    Engine.apply_f_rule "F6" mVal lVal a N =
      (if a = 0 then N + mVal.getD 0 else N + lVal.getD 0) ∧
    ∀ s : String, s ∉ (["F1", "F2", "F3", "F4", "F5", "F6"] : List String) →
      Engine.apply_f_rule s mVal lVal a N = a := by
  refine ⟨rfl, rfl, rfl, rfl, rfl, rfl, ?_⟩
  intro s hs
  simp only [List.mem_cons, List.not_mem_nil, or_false, not_or] at hs
  obtain ⟨h1, h2, h3, h4, h5, h6⟩ := hs
  simp [Engine.apply_f_rule, h1, h2, h3, h4, h5, h6]

/-- Witness for C1 at rule F4, a = 0, N = 2, M = 1. -/
theorem c1_apply_f_rule_witness :
    Engine.apply_f_rule "F4" (some 1) none 0 2 = 2 + (some (1 : Int)).getD 0 :=
  (c1_apply_f_rule 0 2 (by decide) (by decide) (some 1) none).2.2.2.1

/-- The pattern C4 claims, written following the claim's own branch order:
empty for m = 0; "H"/"L" for the 1-mora particle-free case; heiban and
atamadaka shapes; the heiban-shaped fallback for a > total; and otherwise
L + H×(a−1) + L×(total−a). -/
def c4PatternSpec (a : Int) (m : Nat) (includeParticle : Bool) : String :=
  let total := m + (if includeParticle then 1 else 0)
  if m = 0 then ""
  else if m = 1 ∧ includeParticle = false then (if a = 1 then "H" else "L")
  else if a = 0 then String.mk ('L' :: List.replicate (total - 1) 'H')
  else if a = 1 then String.mk ('H' :: List.replicate (total - 1) 'L')
  else if a > (total : Int) then String.mk ('L' :: List.replicate (total - 1) 'H')
  else String.mk ('L' :: (List.replicate (a - 1).toNat 'H' ++
    List.replicate ((total : Int) - a).toNat 'L'))

/-- C4: for every accent a ≥ 0, mora count m and particle flag,
`accent_to_pattern` produces exactly the L/H string described by the claim
(including the heiban-shaped fallback when a exceeds total). -/
theorem c4_accent_to_pattern (a : Int) (m : Nat) (p : Bool) (ha : 0 ≤ a) :
    Engine.accent_to_pattern a m p = c4PatternSpec a m p := rfl

/-- Witness for C4 at a = 3, m = 4 with particle: the nakadaka shape. -/
theorem c4_accent_to_pattern_witness :
    Engine.accent_to_pattern 3 4 true = c4PatternSpec 3 4 true :=
  c4_accent_to_pattern 3 4 true (by decide)

/-! ## String parsing helpers

Models of the Python string operations the engine uses: `str.split` on a
single-character separator, `int(...)` on a decimal-literal string (embedded
with `Option`, as `int` raises otherwise; exotic literal forms such as inner
underscores or surrounding whitespace are not modelled), and the two
anchored regular expressions of engine.py (`re.match` matches a prefix). -/

/-- Python `s.split(sep)` for a one-character separator, on code-point lists.
`"".split(sep) = [""]` and separators at the ends produce empty pieces,
as in Python. -/
def splitOnChar (sep : Char) : List Char → List (List Char)
  | [] => [[]]
  | c :: cs =>
    if c = sep then [] :: splitOnChar sep cs
    else
      match splitOnChar sep cs with
      | [] => [[c]]
      | h :: t => (c :: h) :: t

/-- Decimal value of a digit list (most significant first). -/
def digitsToNat (ds : List Char) : Nat :=
  ds.foldl (fun n c => 10 * n + (c.toNat - '0'.toNat)) 0

/-- Python `int(s)` on a string: optional sign followed by one or more
digits; `none` when `int` would raise `ValueError`. -/
def pyInt? (s : String) : Option Int :=
  match s.data with
  | '-' :: rest =>
    if rest ≠ [] ∧ rest.all (·.isDigit) then some (-(digitsToNat rest : Int)) else none
  | '+' :: rest =>
    if rest ≠ [] ∧ rest.all (·.isDigit) then some (digitsToNat rest : Int) else none
  | l => if l ≠ [] ∧ l.all (·.isDigit) then some (digitsToNat l : Int) else none

/-- Parse `-?\d+` at the head of a code-point list, returning the value and
the unconsumed rest; `none` when no digits follow (the regex fails). -/
def parseSignedInt : List Char → Option (Int × List Char)
  | '-' :: rest =>
    match rest.takeWhile (·.isDigit) with
    | [] => none
    | ds => some (-(digitsToNat ds : Int), rest.drop ds.length)
  | l =>
    match l.takeWhile (·.isDigit) with
    | [] => none
    | ds => some ((digitsToNat ds : Int), l.drop ds.length)

namespace Engine

/-- The regex `M(\d+)@(-?\d+)` of engine.py `apply_mod_type`, matched against
a prefix of the string (as `re.match` does); returns the two groups. -/
def parseModType (s : String) : Option (Nat × Int) :=
  match s.data with
  | 'M' :: rest =>
    match rest.takeWhile (·.isDigit) with
    | [] => none
    | ds =>
      match rest.drop ds.length with
      | '@' :: rest2 =>
        match parseSignedInt rest2 with
        | some (v, _) => some (digitsToNat ds, v)
        | none => none
      | _ => none
  | _ => none

/-- engine.py `AccentEngine.apply_mod_type`. -/
def apply_mod_type (modType : String) (baseAccent : Int) : Int :=
  if modType = "" ∨ modType = "*" then baseAccent
  else
    match parseModType modType with
    | none => baseAccent
    | some (mType, mVal) =>
      if mType = 4 then
        if baseAccent = 0 then 0 else max 0 (baseAccent - mVal)
      else if mType = 1 then mVal
      else baseAccent

/-- aType parsing in engine.py `AccentEngine.compute_accent` (lines 226-231):
a truthy, non-`"*"` aType has its first comma-separated token parsed by
`int(...)`; otherwise the base accent is 0. -/
def base_accent_of_aType (aType : String) : Option Int :=
  if aType ≠ "" ∧ aType ≠ "*" then
    pyInt? (String.mk ((splitOnChar ',' aType.data).headD []))
  else some 0

/-- Head-morpheme accent initialization in engine.py
`AccentEngine.compute_accent` (lines 226-243): base accent from aType, then
`apply_mod_type` when aModType is present and not `"*"`. -/
def headAccent (aType aModType : String) : Option Int :=
  (base_accent_of_aType aType).map fun a =>
    if aModType ≠ "" ∧ aModType ≠ "*" then apply_mod_type aModType a else a

end Engine

/-- C7: head initialization of the accent fold.  The base accent is the first
comma-separated token of aType, with `"*"` (or empty) meaning 0; `M4@n` maps
accent a to 0 when a = 0 and to max(0, a−n) otherwise; `M1@n` sets the accent
to n; any other or `"*"` mod-type spec leaves the accent unchanged; and the
head accent is the mod-type application composed with the base-accent parse. -/
theorem c7_head_initialization (aT mod : String) (a n : Int) (t : Nat) :
    (Engine.base_accent_of_aType "*" = some 0 ∧
      Engine.base_accent_of_aType "" = some 0) ∧
    (aT ≠ "" → aT ≠ "*" →
      Engine.base_accent_of_aType aT =
        pyInt? (String.mk ((splitOnChar ',' aT.data).headD []))) ∧
    (Engine.parseModType mod = some (4, n) →
      Engine.apply_mod_type mod a = (if a = 0 then 0 else max 0 (a - n))) ∧
    (Engine.parseModType mod = some (1, n) → Engine.apply_mod_type mod a = n) ∧
    (Engine.parseModType mod = some (t, n) → t ≠ 4 → t ≠ 1 →
      Engine.apply_mod_type mod a = a) ∧
    (Engine.parseModType mod = none → Engine.apply_mod_type mod a = a) ∧
    (Engine.headAccent aT mod =
      (Engine.base_accent_of_aType aT).map (Engine.apply_mod_type mod)) := by
  have hmodty : ∀ m' : String, m' = "" ∨ m' = "*" → Engine.parseModType m' = none := by
    rintro m' (rfl | rfl) <;> rfl
  refine ⟨⟨rfl, rfl⟩, ?_, ?_, ?_, ?_, ?_, ?_⟩
  · intro h1 h2
    rw [Engine.base_accent_of_aType, if_pos ⟨h1, h2⟩]
  · intro hp
    have hne : ¬ (mod = "" ∨ mod = "*") := by
      rintro (rfl | rfl) <;> simp [hmodty] at hp
    rw [Engine.apply_mod_type, if_neg hne, hp]
    simp
  · intro hp
    have hne : ¬ (mod = "" ∨ mod = "*") := by
      rintro (rfl | rfl) <;> simp [hmodty] at hp
    rw [Engine.apply_mod_type, if_neg hne, hp]
    simp
  · intro hp ht4 ht1
    have hne : ¬ (mod = "" ∨ mod = "*") := by
      rintro (rfl | rfl) <;> simp [hmodty] at hp
    rw [Engine.apply_mod_type, if_neg hne, hp]
    simp [ht4, ht1]
  · intro hp
    by_cases hne : mod = "" ∨ mod = "*"
    · rw [Engine.apply_mod_type, if_pos hne]
    · rw [Engine.apply_mod_type, if_neg hne, hp]
  · rw [Engine.headAccent]
    by_cases hg : mod ≠ "" ∧ mod ≠ "*"
    · simp [hg]
    · have hor : mod = "" ∨ mod = "*" := by tauto
      have hid : ∀ x : Int, Engine.apply_mod_type mod x = x := by
        intro x; rw [Engine.apply_mod_type, if_pos hor]
      cases hba : Engine.base_accent_of_aType aT
      · simp [hg]
      · simp [hg, hid]

/-- Witness for C7: aType "2,0" parses to 2; `M4@1` shifts accent 2 to 1. -/
theorem c7_head_initialization_witness :
    Engine.base_accent_of_aType "2,0" =
      pyInt? (String.mk ((splitOnChar ',' ("2,0" : String).data).headD [])) ∧
    Engine.apply_mod_type "M4@1" 2 = (if (2 : Int) = 0 then 0 else max 0 (2 - 1)) := by
  have h := c7_head_initialization "2,0" "M4@1" 2 1 0
  exact ⟨h.2.1 (by decide) (by decide), h.2.2.1 (by decide)⟩

/-- An H→L pitch-drop transition starting at one of the first `m` (0-indexed)
positions of the character list `l`: some `i < m` has `l[i] = 'H'` and
`l[i+1] = 'L'`. -/
def hasDropIn (l : List Char) (m : Nat) : Bool :=
  (List.range m).any fun i => (l[i]? == some 'H') && (l[i + 1]? == some 'L')

lemma pattern_data_of_zero (m : Nat) (hm : 1 ≤ m) :
    (Engine.accent_to_pattern 0 m true).data = 'L' :: List.replicate m 'H' := by
  simp [Engine.accent_to_pattern, show ¬ m = 0 by omega]

lemma pattern_data_of_one (m : Nat) (hm : 1 ≤ m) :
    (Engine.accent_to_pattern 1 m true).data = 'H' :: List.replicate m 'L' := by
  simp [Engine.accent_to_pattern, show ¬ m = 0 by omega]

lemma pattern_data_of_mid (k m : Nat) (h2 : 2 ≤ k) (hkm : k ≤ m) :
    (Engine.accent_to_pattern (k : Int) m true).data =
      'L' :: (List.replicate (k - 1) 'H' ++ List.replicate (m + 1 - k) 'L') := by
  have hm0 : ¬ m = 0 := by omega
  have e1 : ((k : Int) - 1).toNat = k - 1 := by omega
  have e2 : (((m + 1 : Nat) : Int) - (k : Int)).toNat = m + 1 - k := by omega
  simp only [Engine.accent_to_pattern, if_neg hm0]
  rw [if_neg (show ¬ (m = 1 ∧ true = false) by simp)]
  rw [if_neg (show ¬ ((k : Int) = 0) by omega)]
  rw [if_neg (show ¬ ((k : Int) = 1) by omega)]
  rw [show (m + if True then 1 else 0) = m + 1 by simp]
  rw [if_neg (show ¬ ((k : Int) > ((m + 1 : Nat) : Int)) by push_cast; omega)]
  rw [e1, e2]

/-- C9 is false as stated: at accent a = 2 and mora count m = 1 the produced
(with-particle) pattern is "LH", which has no H→L transition within its
first 1 positions, yet a ≠ 0. -/
theorem c9_counterexample :
    Engine.accent_to_pattern 2 1 true = "LH" ∧
    hasDropIn (Engine.accent_to_pattern 2 1 true).data 1 = false ∧
    (2 : Int) ≠ 0 :=
  ⟨rfl, by decide, by decide⟩

/-- C9 amended: for every accent 0 ≤ a ≤ m and mora count m ≥ 1 (so that the
accent lies within the word rather than on or beyond the appended particle),
a = 0 iff the pattern produced by `accent_to_pattern` has no H→L transition
starting within its first m positions. -/
theorem c9_amended (a : Int) (m : Nat) (hm : 1 ≤ m) (ha0 : 0 ≤ a)
    (ham : a ≤ (m : Int)) :
    a = 0 ↔ hasDropIn (Engine.accent_to_pattern a m true).data m = false := by
  obtain ⟨k, rfl⟩ : ∃ k : Nat, a = (k : Int) := ⟨a.toNat, (Int.toNat_of_nonneg ha0).symm⟩
  have hkm : k ≤ m := by exact_mod_cast ham
  constructor
  · intro h0
    have hk0 : k = 0 := by exact_mod_cast h0
    subst hk0
    rw [show ((0 : Nat) : Int) = 0 from rfl, pattern_data_of_zero m hm]
    simp only [hasDropIn, List.any_eq_false, List.mem_range]
    intro i hi
    simp only [Bool.and_eq_true, beq_iff_eq, not_and]
    intro _
    rw [List.getElem?_cons_succ, List.getElem?_replicate]
    split
    · simp
    · simp
  · intro hdrop
    by_contra hne
    have hk1 : 1 ≤ k := by
      rcases Nat.eq_zero_or_pos k with h | h
      · subst h; simp at hne
      · exact h
    have : hasDropIn (Engine.accent_to_pattern (k : Int) m true).data m = true := by
      rcases Nat.lt_or_ge k 2 with hk2 | hk2
      · -- k = 1: atamadaka, drop right after the first mora
        have hk : k = 1 := by omega
        subst hk
        rw [show ((1 : Nat) : Int) = 1 by norm_num, pattern_data_of_one m hm]
        simp only [hasDropIn, List.any_eq_true, List.mem_range]
        refine ⟨0, by omega, ?_⟩
        simp only [Bool.and_eq_true, beq_iff_eq]
        refine ⟨by simp, ?_⟩
        rw [List.getElem?_cons_succ, List.getElem?_replicate]
        simp only [if_pos (show 0 < m by omega)]
      · -- 2 ≤ k ≤ m: nakadaka/odaka, drop after the k-th mora
        rw [pattern_data_of_mid k m hk2 hkm]
        simp only [hasDropIn, List.any_eq_true, List.mem_range]
        refine ⟨k - 1, by omega, ?_⟩
        simp only [Bool.and_eq_true, beq_iff_eq]
        constructor
        · have hlen : k - 2 < (List.replicate (k - 2 + 1) 'H').length := by
            simp only [List.length_replicate]; omega
          have hi : k - 1 = (k - 2) + 1 := by omega
          rw [hi, List.getElem?_cons_succ, List.getElem?_append, if_pos hlen,
            List.getElem?_replicate, if_pos (show k - 2 < k - 2 + 1 by omega)]
        · have hlen : ¬ (k - 1 < (List.replicate (k - 1) 'H').length) := by
            simp only [List.length_replicate]; omega
          rw [List.getElem?_cons_succ, List.getElem?_append, if_neg hlen]
          simp only [List.length_replicate]
          rw [List.getElem?_replicate,
            if_pos (show k - 1 - (k - 1) < m + 1 - k by omega)]
    rw [hdrop] at this
    exact Bool.false_ne_true this

/-- Witness for C9 amended at a = 0, m = 2: the heiban pattern has no drop. -/
theorem c9_amended_witness :
    hasDropIn (Engine.accent_to_pattern 0 2 true).data 2 = false :=
  (c9_amended 0 2 (by decide) (by decide) (by decide)).mp rfl

/-! ## Compound noun accent (compound.py) -/

namespace Compound

/-- compound.py `SPECIAL_MORA`: the set literal "んっー". -/
def SPECIAL_MORA : List Char := ['ん', 'っ', 'ー']

/-- compound.py `ends_with_special_mora`: the last code point is in
`SPECIAL_MORA`, or the last two form one of the listed long vowels. -/
def ends_with_special_mora (reading : String) : Bool :=
  match reading.data.reverse with
  | [] => false
  | c :: rest =>
    if c ∈ SPECIAL_MORA then true
    else
      match rest with
      | c2 :: _ =>
        (["おう", "うう", "おお", "えい", "いい", "ああ"] : List String).contains
          (String.mk [c2, c])
      | [] => false

/-- compound.py `get_special_mora_at_end_count`: number of trailing code
points in `SPECIAL_MORA`. -/
def get_special_mora_at_end_count (reading : String) : Nat :=
  (reading.data.reverse.takeWhile (fun c => decide (c ∈ SPECIAL_MORA))).length

/-- compound.py `HEIBAN_SUFFIXES`. -/
def HEIBAN_SUFFIXES : List String :=
  ["語", "色", "的", "性", "化", "家", "者", "員", "式", "用",
   "中", "内", "外", "上", "下", "間", "前", "後", "代", "感"]

/-- compound.py `compute_compound_accent`: Tokyo length-driven compound rules.
Returns (accent_type, rule_name). -/
def compute_compound_accent (n1Reading : String) (n1Accent : Int)
    (n2Reading : String) (n2Accent : Int) (n2Surface : String := "") :
    Int × String :=
  let n1Len := count_mora n1Reading
  let n2Len := count_mora n2Reading
  if n2Surface ∈ HEIBAN_SUFFIXES then (0, "heiban_suffix")
  else if n2Len ≤ 2 then
    if ends_with_special_mora n1Reading then
      let shift := get_special_mora_at_end_count n1Reading
      (max 1 ((n1Len : Int) - (shift : Int)), "N2≤2_special_shift_" ++ toString shift)
    else ((n1Len : Int), "N2≤2_boundary")
  else if 3 ≤ n2Len ∧ n2Len ≤ 4 then
    if n2Accent = 0 ∨ n2Accent = (n2Len : Int) then
      ((n1Len : Int) + 1, "N2=3-4_heiban/odaka→N2_initial")
    else ((n1Len : Int) + n2Accent, "N2=3-4_preserve_N2")
  else if n2Accent = 0 then (0, "N2≥5_heiban→compound_heiban")
  else ((n1Len : Int) + n2Accent, "N2≥5_preserve_N2")

/-- Loop of compound.py `compute_multi_noun_compound` over the third and
later components (left-binary fold). -/
def multiNounGo : List (String × String × Int) → Int → String → List String →
    Int × String × List String
  | [], acc, reading, rules => (acc, reading, rules)
  | c :: rest, acc, reading, rules =>
    let r := compute_compound_accent reading acc c.2.1 c.2.2 c.1
    multiNounGo rest r.1 (reading ++ c.2.1) (rules ++ ["+" ++ c.1 ++ ": " ++ r.2])

/-- compound.py `compute_multi_noun_compound`: components are
(surface, reading, accent) triples; returns (accent, reading, rules). -/
def compute_multi_noun_compound (components : List (String × String × Int)) :
    Int × String × List String :=
  match components with
  | [] => (0, "", [])
  | [c] => (c.2.2, c.2.1, ["single_noun"])
  | c1 :: c2 :: rest =>
    let r := compute_compound_accent c1.2.1 c1.2.2 c2.2.1 c2.2.2 c2.1
    multiNounGo rest r.1 (c1.2.1 ++ c2.2.1)
      [c1.1 ++ "+" ++ c2.1 ++ ": " ++ r.2]

end Compound

/-- C2: the two-noun compound accent rules, in the code's branch order:
heiban-suffix check first, then the N2-length cases, with the
special-mora left shift (count of trailing ん/っ/ー, clipped at 1) when N1's
reading ends with a special mora. -/
theorem c2_compound_accent (r1 : String) (a1 : Int) (r2 : String) (a2 : Int)
    (s2 : String) :
    (s2 ∈ Compound.HEIBAN_SUFFIXES →
      Compound.compute_compound_accent r1 a1 r2 a2 s2 = (0, "heiban_suffix")) ∧
    (s2 ∉ Compound.HEIBAN_SUFFIXES → Compound.count_mora r2 ≤ 2 →
      Compound.ends_with_special_mora r1 = false →
      (Compound.compute_compound_accent r1 a1 r2 a2 s2).1 =
        (Compound.count_mora r1 : Int)) ∧
    (s2 ∉ Compound.HEIBAN_SUFFIXES → Compound.count_mora r2 ≤ 2 →
      Compound.ends_with_special_mora r1 = true →
      (Compound.compute_compound_accent r1 a1 r2 a2 s2).1 =
        max 1 ((Compound.count_mora r1 : Int) -
          (Compound.get_special_mora_at_end_count r1 : Int))) ∧
    (s2 ∉ Compound.HEIBAN_SUFFIXES → 3 ≤ Compound.count_mora r2 →
      Compound.count_mora r2 ≤ 4 →
      (a2 = 0 ∨ a2 = (Compound.count_mora r2 : Int)) →
      (Compound.compute_compound_accent r1 a1 r2 a2 s2).1 =
        (Compound.count_mora r1 : Int) + 1) ∧
    (s2 ∉ Compound.HEIBAN_SUFFIXES → 3 ≤ Compound.count_mora r2 →
      Compound.count_mora r2 ≤ 4 →
      a2 ≠ 0 → a2 ≠ (Compound.count_mora r2 : Int) →
      (Compound.compute_compound_accent r1 a1 r2 a2 s2).1 =
        (Compound.count_mora r1 : Int) + a2) ∧
    (s2 ∉ Compound.HEIBAN_SUFFIXES → 5 ≤ Compound.count_mora r2 → a2 = 0 →
      (Compound.compute_compound_accent r1 a1 r2 a2 s2).1 = 0) ∧
    (s2 ∉ Compound.HEIBAN_SUFFIXES → 5 ≤ Compound.count_mora r2 → a2 ≠ 0 →
      (Compound.compute_compound_accent r1 a1 r2 a2 s2).1 =
        (Compound.count_mora r1 : Int) + a2) := by
  refine ⟨?_, ?_, ?_, ?_, ?_, ?_, ?_⟩
  · intro hs
    rw [Compound.compute_compound_accent, if_pos hs]
  · intro hs hn2 hsp
    rw [Compound.compute_compound_accent, if_neg hs, if_pos hn2, if_neg (by simp [hsp])]
  · intro hs hn2 hsp
    rw [Compound.compute_compound_accent, if_neg hs, if_pos hn2, if_pos (by simp [hsp])]
  · intro hs h3 h4 hacc
    rw [Compound.compute_compound_accent, if_neg hs, if_neg (by omega),
      if_pos ⟨h3, h4⟩, if_pos hacc]
  · intro hs h3 h4 hne1 hne2
    rw [Compound.compute_compound_accent, if_neg hs, if_neg (by omega),
      if_pos ⟨h3, h4⟩, if_neg (by tauto)]
  · intro hs h5 hacc
    rw [Compound.compute_compound_accent, if_neg hs, if_neg (by omega),
      if_neg (by omega), if_pos hacc]
  · intro hs h5 hacc
    rw [Compound.compute_compound_accent, if_neg hs, if_neg (by omega),
      if_neg (by omega), if_neg hacc]

/-- Witness for C2: にほん+ご(語) hits the heiban-suffix branch; にほん+めん
exercises the special-mora left shift (にほん ends in ん); あんぜん+ほしょう
exercises the 3-4 mora branch with a heiban N2. -/
theorem c2_compound_accent_witness :
    Compound.compute_compound_accent "にほん" 2 "ご" 1 "語" = (0, "heiban_suffix") ∧
    (Compound.compute_compound_accent "にほん" 2 "めん" 0 "面").1 =
      max 1 ((Compound.count_mora "にほん" : Int) -
        (Compound.get_special_mora_at_end_count "にほん" : Int)) ∧
    (Compound.compute_compound_accent "あんぜん" 0 "ほしょう" 0 "保障").1 =
      (Compound.count_mora "あんぜん" : Int) + 1 := by
  refine ⟨(c2_compound_accent "にほん" 2 "ご" 1 "語").1 (by decide), ?_, ?_⟩
  · exact (c2_compound_accent "にほん" 2 "めん" 0 "面").2.2.1 (by decide) (by decide)
      (by decide)
  · exact (c2_compound_accent "あんぜん" 0 "ほしょう" 0 "保障").2.2.2.1 (by decide)
      (by decide) (by decide) (Or.inl rfl)

/-- C8: left-binary compound fold law.  Folding [A, B, C] gives the same
final accent and reading as folding [AB, C], where AB carries the
concatenated reading of A and B and the accent of the pairwise fold of A and
B (AB's surface is irrelevant: C's own surface is used for the suffix check
in both folds). -/
theorem c8_fold_left_binary (A B C : String × String × Int) (sAB : String) :
    (Compound.compute_multi_noun_compound [A, B, C]).1 =
      (Compound.compute_multi_noun_compound
        [(sAB, A.2.1 ++ B.2.1,
          (Compound.compute_compound_accent A.2.1 A.2.2 B.2.1 B.2.2 B.1).1), C]).1 ∧
    (Compound.compute_multi_noun_compound [A, B, C]).2.1 =
      (Compound.compute_multi_noun_compound
        [(sAB, A.2.1 ++ B.2.1,
          (Compound.compute_compound_accent A.2.1 A.2.2 B.2.1 B.2.2 B.1).1), C]).2.1 :=
  ⟨rfl, rfl⟩

/-! ## Numeral-counter phrase accent (numeral_accent.py) -/

namespace NumeralAcc

/-- numeral_accent.py `COUNTER_CATEGORIES`. -/
def COUNTER_CATEGORIES : List (String × String) :=
  [("つ", "α"), ("個", "α"), ("枚", "α"),
   ("本", "β"), ("杯", "β"),
   ("階", "γ"), ("軒", "γ"),
   ("年", "δ"), ("月", "δ"), ("週", "δ"),
   ("回", "ε"), ("度", "ε"),
   ("分", "ζ"), ("秒", "ζ"),
   ("円", "η"),
   ("歳", "θ"), ("才", "θ"),
   ("時", "ι"), ("時間", "ι"),
   ("日", "κ"), ("日間", "κ"),
   ("人", "λ"), ("名", "λ"),
   ("台", "μ"), ("匹", "μ"), ("頭", "μ"),
   ("番", "ν"), ("号", "ν")]

/-- numeral_accent.py `NUMERAL_READINGS`. -/
def NUMERAL_READINGS : List (Int × String) :=
  [(0, "ゼロ"), (1, "いち"), (2, "に"), (3, "さん"), (4, "よん"), (5, "ご"),
   (6, "ろく"), (7, "なな"), (8, "はち"), (9, "きゅう"), (10, "じゅう"),
   (100, "ひゃく"), (1000, "せん"), (10000, "まん")]

/-- numeral_accent.py `NUMERAL_COUNTER_OVERRIDES`:
(numeral, category) → rule code (0 normal sandhi, 1 heiban,
2 counter-initial, 3 counter-final). -/
def NUMERAL_COUNTER_OVERRIDES : List ((Int × String) × Nat) :=
  [((1, "δ"), 1), ((2, "δ"), 1), ((3, "δ"), 1), ((4, "δ"), 1), ((5, "δ"), 1),
   ((6, "δ"), 1), ((7, "δ"), 1), ((8, "δ"), 1), ((9, "δ"), 1), ((10, "δ"), 1),
   ((1, "λ"), 0), ((2, "λ"), 0), ((3, "λ"), 1), ((4, "λ"), 1), ((5, "λ"), 2),
   ((6, "λ"), 2), ((7, "λ"), 2), ((8, "λ"), 2), ((9, "λ"), 2), ((10, "λ"), 2),
   ((1, "β"), 2), ((2, "β"), 2), ((3, "β"), 0), ((4, "β"), 2), ((5, "β"), 2),
   ((6, "β"), 0), ((7, "β"), 2), ((8, "β"), 0), ((9, "β"), 2), ((10, "β"), 0),
   ((1, "η"), 1), ((2, "η"), 1), ((3, "η"), 1), ((4, "η"), 1), ((5, "η"), 1),
   ((6, "η"), 1), ((7, "η"), 1), ((8, "η"), 1), ((9, "η"), 1), ((10, "η"), 1),
   ((1, "ε"), 2), ((2, "ε"), 1), ((3, "ε"), 1), ((4, "ε"), 1), ((5, "ε"), 1),
   ((6, "ε"), 0), ((7, "ε"), 1), ((8, "ε"), 0), ((9, "ε"), 1), ((10, "ε"), 0),
   ((1, "ι"), 2), ((2, "ι"), 2), ((3, "ι"), 2), ((4, "ι"), 2), ((5, "ι"), 2),
   ((6, "ι"), 2), ((7, "ι"), 2), ((8, "ι"), 2), ((9, "ι"), 2), ((10, "ι"), 2),
   ((1, "κ"), 0), ((2, "κ"), 0), ((3, "κ"), 0), ((4, "κ"), 0), ((5, "κ"), 0),
   ((6, "κ"), 0), ((7, "κ"), 0), ((8, "κ"), 0), ((9, "κ"), 0), ((10, "κ"), 0)]

/-- numeral_accent.py `READING_ALTERNATIONS`:
(numeral, counter) → (numeral reading, counter reading). -/
def READING_ALTERNATIONS : List ((Int × String) × (String × String)) :=
  [((1, "本"), ("いっ", "ぽん")), ((1, "杯"), ("いっ", "ぱい")),
   ((1, "回"), ("いっ", "かい")), ((1, "階"), ("いっ", "かい")),
   ((6, "本"), ("ろっ", "ぽん")), ((6, "杯"), ("ろっ", "ぱい")),
   ((6, "回"), ("ろっ", "かい")),
   ((8, "本"), ("はっ", "ぽん")), ((8, "杯"), ("はっ", "ぱい")),
   ((8, "回"), ("はっ", "かい")),
   ((10, "本"), ("じゅっ", "ぽん")), ((10, "杯"), ("じゅっ", "ぱい")),
   ((10, "回"), ("じっ", "かい")),
   ((3, "本"), ("さん", "ぼん")),
   ((1, "人"), ("ひと", "り")), ((2, "人"), ("ふた", "り")),
   ((4, "人"), ("よ", "にん")),
   ((1, "日"), ("つい", "たち")), ((2, "日"), ("ふつ", "か")),
   ((3, "日"), ("みっ", "か")), ((4, "日"), ("よっ", "か")),
   ((5, "日"), ("いつ", "か")), ((6, "日"), ("むい", "か")),
   ((7, "日"), ("なの", "か")), ((8, "日"), ("よう", "か")),
   ((9, "日"), ("ここの", "か")), ((10, "日"), ("とお", "か")),
   ((14, "日"), ("じゅうよっ", "か")), ((20, "日"), ("はつ", "か")),
   ((24, "日"), ("にじゅうよっ", "か")),
   ((4, "時"), ("よ", "じ")), ((7, "時"), ("しち", "じ")),
   ((9, "時"), ("く", "じ"))]

/-- numeral_accent.py `get_counter_category`. -/
def get_counter_category (counter : String) : Option String :=
  COUNTER_CATEGORIES.lookup counter

/-- The local `counter_readings` dict of
numeral_accent.py `get_numeral_counter_reading`. -/
def counter_readings : List (String × String) :=
  [("年", "ねん"), ("月", "がつ"), ("日", "にち"), ("時", "じ"),
   ("分", "ふん"), ("秒", "びょう"), ("人", "にん"), ("本", "ほん"),
   ("回", "かい"), ("円", "えん"), ("歳", "さい"), ("個", "こ"),
   ("枚", "まい"), ("台", "だい"), ("階", "かい"), ("番", "ばん")]

/-- numeral_accent.py `get_numeral_counter_reading`: the special alternation
if listed, else the default numeral reading (falling back to `str(numeral)`)
and default counter reading (falling back to the counter surface). -/
def get_numeral_counter_reading (numeral : Int) (counter : String) :
    String × String :=
  match READING_ALTERNATIONS.lookup (numeral, counter) with
  | some p => p
  | none =>
    ((NUMERAL_READINGS.lookup numeral).getD (toString numeral),
     (counter_readings.lookup counter).getD counter)

/-- Override-table lookup in numeral_accent.py
`compute_numeral_phrase_accent`: Python looks up `(numeral, category)` where
`category` may be `None` (a key absent from the table). -/
def resolve_override (numeral : Int) (counter : String) : Option Nat :=
  match get_counter_category counter with
  | none => none
  | some cat => NUMERAL_COUNTER_OVERRIDES.lookup (numeral, cat)

/-- The four override-code branches (plus the unreachable `"unknown"` final
return) of numeral_accent.py `compute_numeral_phrase_accent`. -/
def overrideBranch (ov : Nat) (numMora counterMora totalMora : Nat)
    (fullReading catStr : String) : Int × String × String :=
  if ov = 0 then
    (if counterMora ≤ 2 then (numMora : Int) else (numMora : Int) + 1,
     fullReading, "normal_sandhi_cat_" ++ catStr)
  else if ov = 1 then (0, fullReading, "heiban_cat_" ++ catStr)
  else if ov = 2 then ((numMora : Int) + 1, fullReading, "counter_initial_cat_" ++ catStr)
  else if ov = 3 then ((totalMora : Int), fullReading, "counter_final_cat_" ++ catStr)
  else (0, fullReading, "unknown")

/-- numeral_accent.py `compute_numeral_phrase_accent`: returns
(accent_type, reading, rule_description).  The `counterAccent` parameter is
accepted but never used, as in the source.  `str(None)` in the Python rule
string is rendered "None". -/
def compute_numeral_phrase_accent (numeral : Int) (counter : String)
    (counterAccent : Int := 0) : Int × String × String :=
  let category := get_counter_category counter
  let catStr := match category with | some cat => cat | none => "None"
  let nc := get_numeral_counter_reading numeral counter
  let fullReading := nc.1 ++ nc.2
  let totalMora := count_mora fullReading
  let numMora := count_mora nc.1
  let counterMora := count_mora nc.2
  match resolve_override numeral counter with
  | none =>
    if numeral > 10 then (0, fullReading, "large_number_default_heiban")
    else overrideBranch 0 numMora counterMora totalMora fullReading catStr
  | some ov => overrideBranch ov numMora counterMora totalMora fullReading catStr

end NumeralAcc

/-- C3: numeral-counter accent.  Override code 0 puts the accent at n1 when
the counter (post-alternation) has ≤ 2 mora, else at n1+1; code 1 forces
heiban; code 2 puts it at n1+1; code 3 at the total mora count; with no
override entry and a numeral above 10 the phrase defaults to heiban.
Concretely, (3, 本) → さんぼん [2], (1, 本) → いっぽん [3],
(1, 人) → ひとり [2]. -/
theorem c3_numeral_phrase (n : Int) (c : String) (ca : Int) :
    (NumeralAcc.resolve_override n c = some 0 →
      (NumeralAcc.compute_numeral_phrase_accent n c ca).1 =
        (if NumeralAcc.count_mora (NumeralAcc.get_numeral_counter_reading n c).2 ≤ 2
         then (NumeralAcc.count_mora (NumeralAcc.get_numeral_counter_reading n c).1 : Int)
         else (NumeralAcc.count_mora (NumeralAcc.get_numeral_counter_reading n c).1 : Int) + 1)) ∧
    (NumeralAcc.resolve_override n c = some 1 →
      (NumeralAcc.compute_numeral_phrase_accent n c ca).1 = 0) ∧
    (NumeralAcc.resolve_override n c = some 2 →
      (NumeralAcc.compute_numeral_phrase_accent n c ca).1 =
        (NumeralAcc.count_mora (NumeralAcc.get_numeral_counter_reading n c).1 : Int) + 1) ∧
    (NumeralAcc.resolve_override n c = some 3 →
      (NumeralAcc.compute_numeral_phrase_accent n c ca).1 =
        (NumeralAcc.count_mora ((NumeralAcc.get_numeral_counter_reading n c).1 ++
          (NumeralAcc.get_numeral_counter_reading n c).2) : Int)) ∧
    (NumeralAcc.resolve_override n c = none → n > 10 →
      (NumeralAcc.compute_numeral_phrase_accent n c ca).1 = 0) ∧
    NumeralAcc.compute_numeral_phrase_accent 3 "本" 0 =
      (2, "さんぼん", "normal_sandhi_cat_β") ∧
    NumeralAcc.compute_numeral_phrase_accent 1 "本" 0 =
      (3, "いっぽん", "counter_initial_cat_β") ∧
    NumeralAcc.compute_numeral_phrase_accent 1 "人" 0 =
      (2, "ひとり", "normal_sandhi_cat_λ") := by
  refine ⟨?_, ?_, ?_, ?_, ?_, rfl, rfl, rfl⟩
  · intro h
    simp [NumeralAcc.compute_numeral_phrase_accent, h, NumeralAcc.overrideBranch]
  · intro h
    simp [NumeralAcc.compute_numeral_phrase_accent, h, NumeralAcc.overrideBranch]
  · intro h
    simp [NumeralAcc.compute_numeral_phrase_accent, h, NumeralAcc.overrideBranch]
  · intro h
    simp [NumeralAcc.compute_numeral_phrase_accent, h, NumeralAcc.overrideBranch]
  · intro h h10
    simp [NumeralAcc.compute_numeral_phrase_accent, h, h10]

/-- Witness for C3: (1, 年) resolves to override code 1 (heiban). -/
theorem c3_numeral_phrase_witness :
    (NumeralAcc.compute_numeral_phrase_accent 1 "年" 0).1 = 0 :=
  (c3_numeral_phrase 1 "年" 0).2.1 rfl

/-! ## Full accent fold (engine.py `AccentEngine.compute_accent`) -/

/-- Morpheme record as consumed by `compute_accent`.  The Python dicts carry
these six string fields (plus pos2/cType/cForm, which `compute_accent` never
reads); `reading` falls back to `surface` at dict-access time, so here it is
always present. -/
structure Morpheme where
  surface : String
  reading : String
  pos1 : String
  aType : String
  aConType : String
  aModType : String
deriving DecidableEq, Repr

/-- Substring containment, Python's `sub in s`. -/
def containsSubstr (s sub : List Char) : Bool :=
  s.tails.any fun t => sub.isPrefixOf t

namespace Engine

/-- The parsed F-rule dict built by engine.py
`AccentEngine._parse_acon_for_pos`: `{"type": "F<d>", "M": ..., "L": ...}`. -/
structure FRuleSpec where
  type : String
  M : Option Int
  L : Option Int
deriving DecidableEq, Repr

/-- One optional `(?:@(-?\d+))?` group of the aConType regex: consume `@`
followed by a signed integer if present, else consume nothing. -/
def tryAtInt (l : List Char) : Option Int × List Char :=
  match l with
  | '@' :: rest =>
    match parseSignedInt rest with
    | some (v, rem) => (some v, rem)
    | none => (none, l)
  | _ => (none, l)

/-- The regex `F([1-6])(?:@(-?\d+))?(?:@(-?\d+))?` of
`AccentEngine._parse_acon_for_pos`, matched against a prefix of the spec. -/
def parseFSpec (spec : List Char) : Option FRuleSpec :=
  match spec with
  | 'F' :: d :: rest =>
    if d ∈ (['1', '2', '3', '4', '5', '6'] : List Char) then
      let m := tryAtInt rest
      let l := tryAtInt m.2
      some ⟨String.mk ['F', d], m.1, l.1⟩
    else none
  | _ => none

/-- Loop of `AccentEngine._parse_acon_for_pos` over the comma-separated
parts: skip parts without `%`; on the first part whose POS prefix equals
`posKey` and whose spec matches the F-regex, return that rule. -/
def aconLoop (posKey : String) : List (List Char) → Option FRuleSpec
  | [] => none
  | part :: rest =>
    match splitOnChar '%' part with
    | [_] => aconLoop posKey rest
    | pos :: specParts =>
      if String.mk pos = posKey then
        match parseFSpec (List.intercalate ['%'] specParts) with
        | some r => some r
        | none => aconLoop posKey rest
      else aconLoop posKey rest
    | [] => aconLoop posKey rest

/-- engine.py `AccentEngine._parse_acon_for_pos`. -/
def parse_acon_for_pos (acon : String) (posKey : String) : Option FRuleSpec :=
  if acon = "" ∨ acon = "*" then none
  else aconLoop posKey (splitOnChar ',' acon.data)

/-- POS-key selection in `AccentEngine.compute_accent` (lines 251-261): the
head's pos1 maps to 動詞 / 形容詞 / 名詞 by substring containment. -/
def pos_key_of (prevPos : String) : String :=
  if containsSubstr prevPos.data ("動詞" : String).data then "動詞"
  else if containsSubstr prevPos.data ("形容詞" : String).data then "形容詞"
  else "名詞"

/-- engine.py `AccentEngine._kata_to_hira`: map U+30A1..U+30F6 down by
0x60. -/
def kataToHira (l : List Char) : List Char :=
  l.map fun c =>
    if 0x30A1 ≤ c.toNat ∧ c.toNat ≤ 0x30F6 then Char.ofNat (c.toNat - 0x60) else c

/-- Loop of `AccentEngine.compute_accent` over the suffix morphemes
(lines 246-290): state is (accent, mora, reading, surface). -/
def foldSuffixes (posKey : String) :
    List Morpheme → Int → Nat → List Char → List Char →
    Int × Nat × List Char × List Char
  | [], acc, mora, reading, surf => (acc, mora, reading, surf)
  | morph :: rest, acc, mora, reading, surf =>
    let mMora := count_mora morph.reading
    let newAcc :=
      match parse_acon_for_pos morph.aConType posKey with
      | some r => apply_f_rule r.type r.M r.L acc (mora : Int)
      | none => acc
    foldSuffixes posKey rest newAcc (mora + mMora)
      (reading ++ morph.reading.data) (surf ++ morph.surface.data)

/-- Result record of engine.py `AccentEngine.compute_accent` (the
`breakdown` trace strings are not modelled). -/
structure AccentResult where
  surface : String
  reading : String
  accent_type : Int
  mora_count : Nat
  pattern : String
deriving DecidableEq, Repr

/-- engine.py `AccentEngine.compute_accent`: head accent from aType/aModType,
then the F-rule fold over the remaining morphemes, then pattern expansion
and katakana→hiragana conversion.  `none` embeds the `ValueError` that
Python's `int(...)` raises on a malformed aType. -/
def compute_accent (morphemes : List Morpheme) : Option AccentResult :=
  match morphemes with
  | [] => some ⟨"", "", 0, 0, ""⟩
  | first :: rest =>
    match headAccent first.aType first.aModType with
    | none => none
    | some a0 =>
      let posKey := pos_key_of first.pos1
      let t := foldSuffixes posKey rest a0 (count_mora first.reading)
        first.reading.data first.surface.data
      some ⟨String.mk t.2.2.2, String.mk (kataToHira t.2.2.1), t.1, t.2.1,
        accent_to_pattern t.1 t.2.1 true⟩

end Engine

lemma apply_f_rule_bounds (fType : String) (mVal lVal : Option Int) (a : Int)
    (mora k : Nat) (ha0 : 0 ≤ a) (ha1 : a ≤ (mora : Int) + 1)
    (hM0 : 0 ≤ mVal.getD 0) (hM1 : mVal.getD 0 ≤ (k : Int) + 1)
    (hL0 : 0 ≤ lVal.getD 0) (hL1 : lVal.getD 0 ≤ (k : Int) + 1) :
    0 ≤ Engine.apply_f_rule fType mVal lVal a (mora : Int) ∧
    Engine.apply_f_rule fType mVal lVal a (mora : Int) ≤ ((mora + k : Nat) : Int) + 1 := by
  unfold Engine.apply_f_rule
  split_ifs <;> constructor <;> push_cast <;> omega

lemma foldSuffixes_invariant (posKey : String) (rest : List Morpheme) :
    ∀ (acc : Int) (mora : Nat) (reading surf : List Char),
    0 ≤ acc → acc ≤ (mora : Int) + 1 →
    (∀ m ∈ rest, ∀ r, Engine.parse_acon_for_pos m.aConType posKey = some r →
      0 ≤ r.M.getD 0 ∧ r.M.getD 0 ≤ (Engine.count_mora m.reading : Int) + 1 ∧
      0 ≤ r.L.getD 0 ∧ r.L.getD 0 ≤ (Engine.count_mora m.reading : Int) + 1) →
    0 ≤ (Engine.foldSuffixes posKey rest acc mora reading surf).1 ∧
    (Engine.foldSuffixes posKey rest acc mora reading surf).1 ≤
      ((Engine.foldSuffixes posKey rest acc mora reading surf).2.1 : Int) + 1 := by
  induction rest with
  | nil =>
    intro acc mora reading surf h0 h1 _
    exact ⟨h0, h1⟩
  | cons m rest ih =>
    intro acc mora reading surf h0 h1 hr
    simp only [Engine.foldSuffixes]
    cases hp : Engine.parse_acon_for_pos m.aConType posKey with
    | none =>
      simp only [hp]
      exact ih acc (mora + Engine.count_mora m.reading) _ _ h0
        (by push_cast at h1 ⊢; omega)
        (fun m' hm' => hr m' (List.mem_cons_of_mem _ hm'))
    | some r =>
      simp only [hp]
      obtain ⟨hM0, hM1, hL0, hL1⟩ := hr m (List.mem_cons_self _ _) r hp
      have hb := apply_f_rule_bounds r.type r.M r.L acc mora
        (Engine.count_mora m.reading) h0 h1 hM0 hM1 hL0 hL1
      exact ih _ (mora + Engine.count_mora m.reading) _ _ hb.1 (by push_cast at hb ⊢; omega)
        (fun m' hm' => hr m' (List.mem_cons_of_mem _ hm'))

/-- C6 is false as stated: a single morpheme with aType "5" and a one-mora
reading yields accent_type 5 and mora_count 1, violating
accent_type ≤ mora_count + 1. -/
theorem c6_counterexample :
    Engine.compute_accent [⟨"ア", "ア", "名詞", "5", "*", "*"⟩] =
      some ⟨"ア", "あ", 5, 1, "LH"⟩ ∧
    ¬ ((5 : Int) ≤ (1 : Nat) + 1) := by
  exact ⟨rfl, by decide⟩

/-- C6 amended: the invariant 0 ≤ accent_type ≤ mora_count + 1 holds for
every morpheme list on which `compute_accent` succeeds, provided the head's
initialized accent lies within [0, head mora + 1] and every F-rule parsed
from a suffix's aConType carries M and L parameters within
[0, suffix mora + 1] — conditions the UniDic rule data satisfies, but which
arbitrary aType/aConType/aModType strings can violate. -/
theorem c6_amended (ms : List Morpheme) (res : Engine.AccentResult)
    (h : Engine.compute_accent ms = some res)
    (hhead : ∀ first a, ms.head? = some first →
      Engine.headAccent first.aType first.aModType = some a →
      0 ≤ a ∧ a ≤ (Engine.count_mora first.reading : Int) + 1)
    (hrules : ∀ first, ms.head? = some first →
      ∀ m ∈ ms.tail, ∀ r,
        Engine.parse_acon_for_pos m.aConType (Engine.pos_key_of first.pos1) = some r →
        0 ≤ r.M.getD 0 ∧ r.M.getD 0 ≤ (Engine.count_mora m.reading : Int) + 1 ∧
        0 ≤ r.L.getD 0 ∧ r.L.getD 0 ≤ (Engine.count_mora m.reading : Int) + 1) :
    0 ≤ res.accent_type ∧ res.accent_type ≤ (res.mora_count : Int) + 1 := by
  cases ms with
  | nil =>
    simp only [Engine.compute_accent, Option.some.injEq] at h
    rw [← h]
    constructor <;> norm_num
  | cons first rest =>
    simp only [Engine.compute_accent] at h
    cases ha : Engine.headAccent first.aType first.aModType with
    | none => rw [ha] at h; cases h
    | some a0 =>
      rw [ha] at h
      simp only [Option.some.injEq] at h
      obtain ⟨h0, h1⟩ := hhead first a0 rfl ha
      have hinv := foldSuffixes_invariant (Engine.pos_key_of first.pos1) rest a0
        (Engine.count_mora first.reading) first.reading.data first.surface.data
        h0 h1 (hrules first rfl)
      rw [← h]
      exact hinv

/-- Witness for C6 amended: 食べ (aType 2) + ます under 動詞%F4@1 gives
accent 3 on 4 mora, within the invariant. -/
theorem c6_amended_witness :
    0 ≤ (3 : Int) ∧ (3 : Int) ≤ ((4 : Nat) : Int) + 1 := by
  have h := c6_amended
    [⟨"食べ", "タベ", "動詞", "2", "*", "*"⟩,
     ⟨"ます", "マス", "助動詞", "*", "動詞%F4@1", "*"⟩]
    ⟨"食べます", "たべます", 3, 4, "LHHLL"⟩
    rfl
    (by
      intro first a hf hacc
      simp only [List.head?_cons, Option.some.injEq] at hf
      subst hf
      have : a = 2 := by
        have : (some 2 : Option Int) = some a := hacc
        simpa using this.symm
      subst this
      exact ⟨by decide, by decide⟩)
    (by
      intro first hf m hm r hr
      simp only [List.head?_cons, Option.some.injEq] at hf
      subst hf
      simp only [List.tail_cons, List.mem_singleton] at hm
      subst hm
      have : r = ⟨"F4", some 1, none⟩ := by
        have : (some (⟨"F4", some 1, none⟩ : Engine.FRuleSpec) : Option Engine.FRuleSpec)
            = some r := hr
        simpa using this.symm
      subst this
      exact ⟨by decide, by decide, by decide, by decide⟩)
  exact h

/-! ## Driver error flow (app.py `process_text`,
anki_generator.py `AnkiGenerator.process_sentence` / `process_sentences`)

The per-constituent annotation computation is abstracted as
`annotate : α → Except ε β` (Python code that may raise). -/

namespace Driver

/-- The per-sentence constituent loop of app.py `process_text`
(lines 93-120) and anki_generator.py `process_sentence` (lines 226-290):
results are appended in order and an exception propagates — neither loop
has a per-constituent handler. -/
def processSentence {α ε β : Type} (annotate : α → Except ε β) :
    List α → Except ε (List β)
  | [] => .ok []
  | w :: ws =>
    match annotate w with
    | .error e => .error e
    | .ok b =>
      match processSentence annotate ws with
      | .error e => .error e
      | .ok bs => .ok (b :: bs)

/-- anki_generator.py `process_sentences` (lines 303-319): each sentence is
processed under `try/except Exception`; a failing sentence contributes no
card and processing continues with the next sentence. -/
def processSentences {α ε β : Type} (annotate : α → Except ε β) :
    List (List α) → List (List β)
  | [] => []
  | s :: rest =>
    match processSentence annotate s with
    | .ok card => card :: processSentences annotate rest
    | .error _ => processSentences annotate rest

end Driver

/-- Concrete annotation function for the C5 counterexample: constituent
`true` annotates successfully, `false` raises. -/
def exAnnotate : Bool → Except String Nat
  | true => .ok 1
  | false => .error "boom"

/-- C5 is false as stated: in the sentence [true, false] the second
constituent's error aborts the whole sentence's annotation — the first
constituent's result (which succeeds on its own) is not produced. -/
theorem c5_counterexample :
    Driver.processSentence exAnnotate [true, false] = .error "boom" ∧
    Driver.processSentence exAnnotate [true] = .ok [1] :=
  ⟨rfl, rfl⟩

/-- C5 amended: errors are caught per sentence, not per constituent: a
sentence whose annotation raises is dropped from the output of
`process_sentences`, and every other sentence still produces its result; no
single sentence's failure aborts processing of the remaining sentences. -/
theorem c5_amended {α ε β : Type} (annotate : α → Except ε β)
    (ss1 ss2 : List (List α)) (s : List α) (e : ε)
    (h : Driver.processSentence annotate s = .error e) :
    Driver.processSentences annotate (ss1 ++ s :: ss2) =
      Driver.processSentences annotate ss1 ++ Driver.processSentences annotate ss2 := by
  induction ss1 with
  | nil => simp [Driver.processSentences, h]
  | cons t ts ih =>
    simp only [List.cons_append, Driver.processSentences]
    cases Driver.processSentence annotate t <;> simp [ih]

/-- Witness for C5 amended: the failing middle sentence is dropped, its
neighbours keep their results. -/
theorem c5_amended_witness :
    Driver.processSentences exAnnotate [[true], [true, false], [true, true]] =
      Driver.processSentences exAnnotate [[true]] ++
        Driver.processSentences exAnnotate [[true, true]] :=
  c5_amended exAnnotate [[true]] [[true, true]] [true, false] "boom" rfl

/-- C10: the three mora-counting implementations agree on every string, and
all compute the number of code points outside the small-kana set
{ぁぃぅぇぉゃゅょゎァィゥェォャュョヮ} (so っ, ッ, ー and ん each count as 1
mora). -/
theorem c10_count_mora_agree (s : String) :
    Engine.count_mora s = Compound.count_mora s ∧
    Compound.count_mora s = NumeralAcc.count_mora s ∧
    Compound.count_mora s =
      s.data.countP (fun c => decide (c ∉ Compound.SMALL_KANA)) := by
  exact ⟨countMoraAux_eq_engine_compound s.data, countMoraAux_eq_compound_numeral s.data,
    countMoraAux_eq_countP s.data⟩

end PitchAccent
